import Mathlib

/-!
# Order board (`src/App.js`): reconciliation, mark-delivered and view projection

A shallow embedding of the state handling of the `App` component.

* React state (`useState` cells) is one record, `AppState`. A handler is a
  closure of one render: what it reads from plain variables (`lastOrderCount`
  in `fetchOrders`, `orders` in `handleMarkAsDelivered`) is the value of that
  render and is an argument of its own, while functional updaters
  (`prevOrders`, `prevCount`) read the state the response lands in.
* `order.tableNumber` is an integer and `order.createdAt` the number handed to
  `new Date`. `parseInt` goes through the decimal text of the number and
  `new Date` has a bounded range; both are embedded with these limits.
* The counters are JavaScript numbers that the handlers decrement without a
  floor, so they are `Int`.
* `Array.prototype.sort` is a stable sort (ECMAScript 2019); it is embedded
  as a stable insertion sort driven by the comparator's sign. For a
  consistent comparator every stable sort returns this list.
-/

namespace OrderBoard

/-! ## Data model -/

/-- One dish line of an order (`dish.name`, `dish.quantity`). -/
structure Dish where
  name : String
  quantity : Nat
deriving DecidableEq

/-- An order record as returned by `/getOrders`. -/
structure Order where
  _id : String
  tableNumber : Int
  dishes : List Dish
  isDelivered : Bool
  createdAt : Int
  tokenId : Option String
deriving DecidableEq

/-- A reservation record as returned by `/getReservations`. -/
structure Reservation where
  name : String
  phone : String
  persons : Nat
  date : String
  time : String
deriving DecidableEq

/-- The `useState` cells of `App` (lines 5-14). -/
structure AppState where
  orders : List Order
  reservations : List Reservation
  loading : Bool
  error : String
  selectedTable : Option Int
  menuOption : String
  newOrderCount : Int
  pendingOrderCount : Int
  tapAndCollectCount : Int
  lastOrderCount : Int
deriving DecidableEq

/-- The state `App` starts in (the initial values of lines 5-14). -/
def initialState : AppState :=
  { orders := [], reservations := [], loading := true, error := "",
    selectedTable := none, menuOption := "All Orders", newOrderCount := 0,
    pendingOrderCount := 0, tapAndCollectCount := 0, lastOrderCount := 0 }

/-! ## `parseInt` and `new Date` -/

/-- What `parseInt` reads off a number of magnitude 1e21 or more. JavaScript prints
such a number in exponent form (`1e+21`, `-2.5e+30`) and `parseInt` stops at the
first character that is no digit, so the result is the leading digit with the sign:
never 0, at most 9 in magnitude, and 1 for `1e21`. Which digit the float printing
yields for the other numbers is left to `digit`. -/
structure ExponentForm where
  digit : Int → Int
  digit_ne_zero : ∀ n : Int, digit n ≠ 0
  digit_le_nine : ∀ n : Int, (digit n).natAbs ≤ 9
  digit_1e21 : digit (10 ^ 21) = 1

/-- An `ExponentForm` to evaluate the handlers with: the digit is 1 with the sign. -/
def signDigit : ExponentForm where
  digit := fun n => if n < 0 then -1 else 1
  digit_ne_zero := by intro n; by_cases h : n < 0 <;> simp [h]
  digit_le_nine := by intro n; by_cases h : n < 0 <;> simp [h]
  digit_1e21 := by decide

/-- `parseInt` on an integer-valued number: the number itself below 1e21 in
magnitude, where its text is its decimal digits, and the leading digit of the
exponent form from there on. -/
def parseInt (e : ExponentForm) (n : Int) : Int :=
  if n.natAbs < 10 ^ 21 then n else e.digit n

/-- Whether `new Date(t)` is a valid date: `t` is at most 8.64e15 in magnitude. -/
def validDate (t : Int) : Bool := decide (t.natAbs ≤ 8640000000000000)

/-! ## `Array.prototype.sort` with a comparator -/

/-- Insert `x` in front of the first element it does not compare greater than. -/
def insertSorted {α : Type} (cmp : α → α → Int) (x : α) : List α → List α
  | [] => [x]
  | y :: ys => if cmp x y ≤ 0 then x :: y :: ys else y :: insertSorted cmp x ys

/-- Stable sort by a comparator: `a` comes before `b` when `cmp a b < 0`, and
elements that compare equal keep their input order. -/
def arraySort {α : Type} (cmp : α → α → Int) : List α → List α
  | [] => []
  | x :: xs => insertSorted cmp x (arraySort cmp xs)

/-- The comparator of line 28, `new Date(b.createdAt) - new Date(a.createdAt)`, as
`sort` reads it: the difference of two valid dates, and `NaN`, which `sort` takes
for 0, when one of the dates is invalid. -/
def compareCreatedAt (a b : Order) : Int :=
  if validDate a.createdAt && validDate b.createdAt then b.createdAt - a.createdAt else 0

/-! ## `fetchOrders` (lines 20-53) -/

/-- What the remote read of `fetchOrders` can come back with. -/
inductive FetchResponse where
  /-- `response.ok` with body `data.orders`. -/
  | ok (orders : List Order)
  /-- A response with `response.ok` false and the given `statusText`. -/
  | notOk (statusText : String)
  /-- The `fetch` or `json` promise rejected with an error of this message. -/
  | rejected (message : String)
deriving DecidableEq

/-- Line 34: the value given to `setNewOrderCount`. -/
def countNew (orders : List Order) : Int :=
  ((orders.filter (fun order => !order.isDelivered)).length : Int)

/-- Line 35: the value given to `setPendingOrderCount`. -/
def countPending (orders : List Order) : Int :=
  ((orders.filter (fun order => !order.isDelivered)).length : Int)

/-- Line 38: the value given to `setTapAndCollectCount`. -/
def countTapAndCollect (e : ExponentForm) (orders : List Order) : Int :=
  ((orders.filter
    (fun order => parseInt e order.tableNumber == 0 && !order.isDelivered)).length : Int)

/-- The handler `fetchOrders`: the state after the call and whether
`notificationSound.play()` was called. `lastOrderCount` is the variable of the render
whose closure runs (line 41); `s` is the state the response lands in. -/
def fetchOrders (e : ExponentForm) (lastOrderCount : Int) (s : AppState) :
    FetchResponse → AppState × Bool
  | .ok orders =>
    let sortedOrders := arraySort compareCreatedAt orders
    ({ s with
        orders := sortedOrders
        error := ""
        newOrderCount := countNew sortedOrders
        pendingOrderCount := countPending sortedOrders
        tapAndCollectCount := countTapAndCollect e sortedOrders
        lastOrderCount := (sortedOrders.length : Int)
        loading := false },
      decide ((sortedOrders.length : Int) > lastOrderCount))
  | .notOk statusText =>
    ({ s with error := "Error: " ++ statusText, loading := false }, false)
  | .rejected message =>
    ({ s with error := message, loading := false }, false)

/-! ## `handleMarkAsDelivered` (lines 78-110) -/

/-- What the remote write of `handleMarkAsDelivered` can come back with. -/
inductive MarkResponse where
  /-- `response.ok`. -/
  | ok
  /-- A response with `response.ok` false and body field `data.error`. -/
  | notOk (error : Option String)
  /-- The `fetch` or `json` promise rejected with an error of this message. -/
  | rejected (message : String)
deriving DecidableEq

/-- The expression `data.error || "Error marking order as delivered"` of line 105. -/
def markErrorMessage : Option String → String
  | some message => if message = "" then "Error marking order as delivered" else message
  | none => "Error marking order as delivered"

/-- The updater of line 92-94: every order with this id gets `isDelivered: true`. -/
def markOrders (orders : List Order) (orderId : String) : List Order :=
  orders.map (fun order =>
    if order._id = orderId then { order with isDelivered := true } else order)

/-- The handler `handleMarkAsDelivered`. `orders` is the variable of the render whose
button was clicked (line 100); `s` is the state the response lands in, read by the
updaters `prevOrders` and `prevCount`. -/
def handleMarkAsDelivered (e : ExponentForm) (orders : List Order) (s : AppState)
    (orderId : String) : MarkResponse → AppState
  | .ok =>
    { s with
        orders := markOrders s.orders orderId
        pendingOrderCount := s.pendingOrderCount - 1
        tapAndCollectCount :=
          if decide (s.tapAndCollectCount > 0) &&
              orders.any (fun order =>
                decide (order._id = orderId) && parseInt e order.tableNumber == 0)
          then s.tapAndCollectCount - 1
          else s.tapAndCollectCount }
  | .notOk error => { s with error := markErrorMessage error }
  | .rejected message => { s with error := message }

/-! ## View projection (lines 112-132) -/

/-- The function `getTableStatus`. -/
def getTableStatus (e : ExponentForm) (orders : List Order) (tableNumber : Int) : String :=
  let tableOrders := orders.filter (fun order => parseInt e order.tableNumber == tableNumber)
  if tableOrders.any (fun order => !order.isDelivered) then "pending" else ""

/-- Truthiness of `selectedTable`: `null` and `0` are falsy. -/
def truthy : Option Int → Bool
  | none => false
  | some n => n != 0

/-- The local `filteredOrders` of `renderOrders`. -/
def filteredOrders (e : ExponentForm) (orders : List Order) (menuOption : String)
    (selectedTable : Option Int) : List Order :=
  if menuOption = "All Orders" ∨ menuOption = "Undelivered Orders" then
    orders.filter (fun order =>
      (decide (menuOption = "All Orders") || !order.isDelivered) &&
      (if truthy selectedTable then
        decide (some (parseInt e order.tableNumber) = selectedTable)
      else true))
  else if menuOption = "Tap and Collect" then
    orders.filter (fun order => parseInt e order.tableNumber == 0)
  else []

/-! ## Sequences of handler calls -/

/-- One completed handler call, with what its closure had captured. -/
inductive Event where
  | fetch (lastOrderCount : Int) (response : FetchResponse)
  | mark (orders : List Order) (orderId : String) (response : MarkResponse)
deriving DecidableEq

/-- The state after one completed handler call. -/
def step (e : ExponentForm) (s : AppState) : Event → AppState
  | .fetch lastOrderCount response => (fetchOrders e lastOrderCount s response).1
  | .mark orders orderId response => handleMarkAsDelivered e orders s orderId response

/-- The state after a sequence of completed handler calls. -/
def run (e : ExponentForm) (s : AppState) (events : List Event) : AppState :=
  events.foldl (step e) s

/-- The local `isDelivered` flag of an order id: the flag of the first order
of the list that carries the id, if there is one. -/
def deliveredFlag (orders : List Order) (orderId : String) : Option Bool :=
  (orders.find? (fun order => decide (order._id = orderId))).map (fun order => order.isDelivered)

/-- The counters agree with what `fetchOrders` computes over the order list. -/
def CountersReconciled (e : ExponentForm) (s : AppState) : Prop :=
  s.newOrderCount = countNew s.orders ∧
  s.pendingOrderCount = countPending s.orders ∧
  s.tapAndCollectCount = countTapAndCollect e s.orders

instance (e : ExponentForm) (s : AppState) : Decidable (CountersReconciled e s) := by
  unfold CountersReconciled; infer_instance

/-- Newest first: every order is at least as recent as each order after it. -/
def NewestFirst (l : List Order) : Prop :=
  l.Pairwise (fun a b => b.createdAt ≤ a.createdAt)

instance (l : List Order) : Decidable (NewestFirst l) := by
  unfold NewestFirst; infer_instance

/-- Sample orders used to evaluate the handlers on concrete states. -/
def sampleOrder (orderId : String) (tableNumber : Int) (isDelivered : Bool)
    (createdAt : Int) : Order :=
  { _id := orderId, tableNumber := tableNumber, dishes := [{ name := "Tea", quantity := 2 }],
    isDelivered := isDelivered, createdAt := createdAt, tokenId := none }

/-- A state holding the given orders with the counters `fetchOrders` computes for them. -/
def sampleState (orders : List Order) : AppState :=
  { initialState with
      orders := orders
      loading := false
      newOrderCount := countNew orders
      pendingOrderCount := countPending orders
      tapAndCollectCount := countTapAndCollect signDigit orders
      lastOrderCount := (orders.length : Int) }

/-! ## `parseInt`: facts -/

theorem parseInt_of_small (e : ExponentForm) (n : Int) (h : n.natAbs < 10 ^ 21) :
    parseInt e n = n := by
  unfold parseInt; rw [if_pos h]

theorem parseInt_eq_zero_iff (e : ExponentForm) (n : Int) : parseInt e n = 0 ↔ n = 0 := by
  unfold parseInt
  constructor
  · intro h
    split at h
    · exact h
    · exact absurd h (e.digit_ne_zero n)
  · intro h
    subst h
    rfl

theorem parseInt_beq_zero (e : ExponentForm) (n : Int) :
    (parseInt e n == 0) = (n == 0) := by
  by_cases h : n = 0
  · subst h; rfl
  · have h2 : ¬ parseInt e n = 0 := fun h3 => h ((parseInt_eq_zero_iff e n).1 h3)
    simp [h, h2]

/-! ## Properties of the sort -/

theorem insertSorted_perm {α : Type} (cmp : α → α → Int) (x : α) (l : List α) :
    (insertSorted cmp x l).Perm (x :: l) := by
  induction l with
  | nil => exact List.Perm.refl _
  | cons y ys ih =>
    unfold insertSorted
    split
    · exact List.Perm.refl _
    · exact (List.Perm.cons y ih).trans (List.Perm.swap x y ys)

theorem arraySort_perm {α : Type} (cmp : α → α → Int) (l : List α) :
    (arraySort cmp l).Perm l := by
  induction l with
  | nil => exact List.Perm.refl _
  | cons x xs ih =>
    exact (insertSorted_perm cmp x (arraySort cmp xs)).trans (List.Perm.cons x ih)

theorem arraySort_length {α : Type} (cmp : α → α → Int) (l : List α) :
    (arraySort cmp l).length = l.length :=
  (arraySort_perm cmp l).length_eq

theorem compareCreatedAt_of_valid (a b : Order) (ha : validDate a.createdAt = true)
    (hb : validDate b.createdAt = true) :
    compareCreatedAt a b = b.createdAt - a.createdAt := by
  unfold compareCreatedAt
  rw [ha, hb]
  rfl

theorem compareCreatedAt_pos (a b : Order) (h : ¬ compareCreatedAt a b ≤ 0) :
    a.createdAt < b.createdAt := by
  unfold compareCreatedAt at h
  split at h
  · omega
  · exact absurd (le_refl (0 : Int)) h

theorem insertSorted_newestFirst (x : Order) (l : List Order)
    (hx : validDate x.createdAt = true) (hl : ∀ o ∈ l, validDate o.createdAt = true)
    (h : NewestFirst l) : NewestFirst (insertSorted compareCreatedAt x l) := by
  induction l with
  | nil => simp [insertSorted, NewestFirst]
  | cons y ys ih =>
    unfold NewestFirst at h ih ⊢
    rw [List.pairwise_cons] at h
    have hy : validDate y.createdAt = true := hl y (List.mem_cons_self _ _)
    unfold insertSorted
    split
    · rename_i hxy
      have hyx : y.createdAt ≤ x.createdAt := by
        rw [compareCreatedAt_of_valid x y hx hy] at hxy; omega
      refine List.pairwise_cons.2 ⟨?_, List.pairwise_cons.2 h⟩
      intro b hb
      rcases List.mem_cons.1 hb with rfl | hb
      · exact hyx
      · exact le_trans (h.1 b hb) hyx
    · rename_i hxy
      have hxy2 : x.createdAt < y.createdAt := compareCreatedAt_pos x y hxy
      refine List.pairwise_cons.2
        ⟨?_, ih (fun o ho => hl o (List.mem_cons_of_mem _ ho)) h.2⟩
      intro b hb
      rcases List.mem_cons.1 ((insertSorted_perm compareCreatedAt x ys).subset hb) with rfl | hb
      · exact le_of_lt hxy2
      · exact h.1 b hb

theorem arraySort_newestFirst (l : List Order) (hl : ∀ o ∈ l, validDate o.createdAt = true) :
    NewestFirst (arraySort compareCreatedAt l) := by
  induction l with
  | nil => simp [arraySort, NewestFirst]
  | cons x xs ih =>
    have hxs : ∀ o ∈ xs, validDate o.createdAt = true :=
      fun o ho => hl o (List.mem_cons_of_mem _ ho)
    exact insertSorted_newestFirst x _ (hl x (List.mem_cons_self _ _))
      (fun o ho => hxs o ((arraySort_perm compareCreatedAt xs).subset ho)) (ih hxs)

theorem insertSorted_filter_createdAt (t : Int) (x : Order) (l : List Order) :
    (insertSorted compareCreatedAt x l).filter (fun o => o.createdAt == t) =
      (x :: l).filter (fun o => o.createdAt == t) := by
  induction l with
  | nil => rfl
  | cons y ys ih =>
    unfold insertSorted
    split
    · rfl
    · rename_i hxy
      have hlt : x.createdAt < y.createdAt := compareCreatedAt_pos x y hxy
      rw [List.filter_cons, ih]
      by_cases hx : x.createdAt = t
      · have hy : ¬ y.createdAt = t := by omega
        simp [List.filter_cons, hx, hy]
      · simp [List.filter_cons, hx]

theorem arraySort_filter_createdAt (t : Int) (l : List Order) :
    (arraySort compareCreatedAt l).filter (fun o => o.createdAt == t) =
      l.filter (fun o => o.createdAt == t) := by
  induction l with
  | nil => rfl
  | cons x xs ih =>
    unfold arraySort
    rw [insertSorted_filter_createdAt, List.filter_cons, List.filter_cons, ih]

/-! ## Reconciliation: counters, notification and ordering -/

/-- C1: after a successful `fetchOrders`, `pendingOrderCount` and `newOrderCount` both
equal the number of snapshot orders with `isDelivered` false, and `tapAndCollectCount`
equals the number of snapshot orders with table number 0 and `isDelivered` false. -/
theorem fetchOrders_counters (e : ExponentForm) (p : Int) (s : AppState)
    (snapshot : List Order) :
    (fetchOrders e p s (.ok snapshot)).1.pendingOrderCount =
        ((snapshot.filter (fun o => !o.isDelivered)).length : Int) ∧
    (fetchOrders e p s (.ok snapshot)).1.newOrderCount =
        ((snapshot.filter (fun o => !o.isDelivered)).length : Int) ∧
    (fetchOrders e p s (.ok snapshot)).1.tapAndCollectCount =
        ((snapshot.filter (fun o => o.tableNumber == 0 && !o.isDelivered)).length : Int) := by
  have hp := arraySort_perm compareCreatedAt snapshot
  refine ⟨?_, ?_, ?_⟩
  · show countPending _ = _
    unfold countPending
    rw [(hp.filter _).length_eq]
  · show countNew _ = _
    unfold countNew
    rw [(hp.filter _).length_eq]
  · show countTapAndCollect e _ = _
    unfold countTapAndCollect
    rw [(hp.filter _).length_eq]
    have hf : snapshot.filter
          (fun order => parseInt e order.tableNumber == 0 && !order.isDelivered) =
        snapshot.filter (fun o => o.tableNumber == 0 && !o.isDelivered) := by
      apply List.filter_congr
      intro o _
      rw [parseInt_beq_zero]
    rw [hf]

/-- C3: for every previous order count `p` the running `fetchOrders` holds in its
`lastOrderCount` variable and every snapshot, a successful call plays the notification
exactly when the snapshot is longer than `p` (not when it is equal or shorter), and
afterwards the stored previous order count is the snapshot's length. -/
theorem fetchOrders_notify (e : ExponentForm) (p : Int) (s : AppState)
    (snapshot : List Order) :
    ((fetchOrders e p s (.ok snapshot)).2 = true ↔ (snapshot.length : Int) > p) ∧
    ((fetchOrders e p s (.ok snapshot)).2 = false ↔ (snapshot.length : Int) ≤ p) ∧
    (fetchOrders e p s (.ok snapshot)).1.lastOrderCount = (snapshot.length : Int) := by
  have hl := arraySort_length compareCreatedAt snapshot
  refine ⟨?_, ?_, ?_⟩
  · show decide (((arraySort compareCreatedAt snapshot).length : Int) > p) = true ↔ _
    rw [hl, decide_eq_true_iff]
  · show decide (((arraySort compareCreatedAt snapshot).length : Int) > p) = false ↔ _
    rw [hl, decide_eq_false_iff_not]
    omega
  · show ((arraySort compareCreatedAt snapshot).length : Int) = _
    rw [hl]

theorem markOrders_cons (x : Order) (xs : List Order) (i : String) :
    markOrders (x :: xs) i =
      (if x._id = i then { x with isDelivered := true } else x) :: markOrders xs i := rfl

theorem markOrders_length (l : List Order) (i : String) :
    (markOrders l i).length = l.length := by
  simp [markOrders]

theorem markOrders_map_id (l : List Order) (i : String) :
    (markOrders l i).map (fun o => o._id) = l.map (fun o => o._id) := by
  induction l with
  | nil => rfl
  | cons x xs ih =>
    simp only [markOrders, List.map_cons] at ih ⊢
    rw [ih]
    by_cases h : x._id = i <;> simp [h]

theorem markOrders_map_createdAt (l : List Order) (i : String) :
    (markOrders l i).map (fun o => o.createdAt) = l.map (fun o => o.createdAt) := by
  induction l with
  | nil => rfl
  | cons x xs ih =>
    simp only [markOrders, List.map_cons] at ih ⊢
    rw [ih]
    by_cases h : x._id = i <;> simp [h]

theorem newestFirst_of_map_createdAt (l l2 : List Order)
    (h : l2.map (fun o => o.createdAt) = l.map (fun o => o.createdAt))
    (hl : NewestFirst l) : NewestFirst l2 := by
  unfold NewestFirst at hl ⊢
  have h1 : (l.map (fun o => o.createdAt)).Pairwise (fun a b => b ≤ a) :=
    List.pairwise_map.2 hl
  rw [← h] at h1
  exact List.pairwise_map.1 h1

/-- C10 as stated fails: a `createdAt` outside the range of `Date` makes the comparator
`NaN`, which `sort` takes for 0, so the snapshot `[a, b]` with `b` the later and invalid
one is installed as it came, older order first. -/
theorem fetchOrders_invalid_date_unsorted :
    (fetchOrders signDigit 0 initialState
      (.ok [sampleOrder "a" 1 false 1, sampleOrder "b" 2 false 8640000000000001])).1.orders =
      [sampleOrder "a" 1 false 1, sampleOrder "b" 2 false 8640000000000001] ∧
    ¬ NewestFirst (fetchOrders signDigit 0 initialState
      (.ok [sampleOrder "a" 1 false 1, sampleOrder "b" 2 false 8640000000000001])).1.orders := by
  decide

/-- C10, amended: for a snapshot whose `createdAt` values are all valid dates, the list
installed by a successful `fetchOrders` is a permutation of the snapshot, newest first,
with orders of equal `createdAt` in their snapshot order; a successful
`handleMarkAsDelivered` on it keeps the length, the order ids and the `createdAt` values
position by position, so the list stays newest first. -/
theorem fetchOrders_sorted_stable (e : ExponentForm) (p : Int) (s : AppState)
    (snapshot c : List Order) (i : String)
    (hvalid : ∀ o ∈ snapshot, validDate o.createdAt = true) :
    (fetchOrders e p s (.ok snapshot)).1.orders.Perm snapshot ∧
    NewestFirst (fetchOrders e p s (.ok snapshot)).1.orders ∧
    (∀ t : Int, (fetchOrders e p s (.ok snapshot)).1.orders.filter (fun o => o.createdAt == t) =
        snapshot.filter (fun o => o.createdAt == t)) ∧
    (handleMarkAsDelivered e c (fetchOrders e p s (.ok snapshot)).1 i .ok).orders.length =
        (fetchOrders e p s (.ok snapshot)).1.orders.length ∧
    (handleMarkAsDelivered e c (fetchOrders e p s (.ok snapshot)).1 i .ok).orders.map
        (fun o => o._id) =
        (fetchOrders e p s (.ok snapshot)).1.orders.map (fun o => o._id) ∧
    (handleMarkAsDelivered e c (fetchOrders e p s (.ok snapshot)).1 i .ok).orders.map
        (fun o => o.createdAt) =
        (fetchOrders e p s (.ok snapshot)).1.orders.map (fun o => o.createdAt) ∧
    NewestFirst (handleMarkAsDelivered e c (fetchOrders e p s (.ok snapshot)).1 i .ok).orders := by
  refine ⟨arraySort_perm _ _, arraySort_newestFirst _ hvalid,
    fun t => arraySort_filter_createdAt t _,
    markOrders_length _ _, markOrders_map_id _ _, markOrders_map_createdAt _ _, ?_⟩
  exact newestFirst_of_map_createdAt _ _ (markOrders_map_createdAt _ _)
    (arraySort_newestFirst _ hvalid)

/-- Witness of C10 (amended): three orders with valid dates, two of them of the same
`createdAt`, come out newest first with the tie in snapshot order. -/
theorem fetchOrders_sorted_stable_witness :
    (∀ o ∈ [sampleOrder "a" 1 false 5, sampleOrder "b" 0 false 9, sampleOrder "c" 2 false 5],
      validDate o.createdAt = true) ∧
    (fetchOrders signDigit 0 initialState
      (.ok [sampleOrder "a" 1 false 5, sampleOrder "b" 0 false 9,
        sampleOrder "c" 2 false 5])).1.orders =
      [sampleOrder "b" 0 false 9, sampleOrder "a" 1 false 5, sampleOrder "c" 2 false 5] ∧
    NewestFirst (fetchOrders signDigit 0 initialState
      (.ok [sampleOrder "a" 1 false 5, sampleOrder "b" 0 false 9,
        sampleOrder "c" 2 false 5])).1.orders :=
  ⟨by decide, by decide,
    (fetchOrders_sorted_stable signDigit 0 initialState
      [sampleOrder "a" 1 false 5, sampleOrder "b" 0 false 9, sampleOrder "c" 2 false 5]
      [] "a" (by decide)).2.1⟩

/-! ## Mark-delivered: counters -/

theorem mem_markOrders_of_mem (l : List Order) (i : String) (o : Order) (h : o ∈ l)
    (hid : o._id = i) : { o with isDelivered := true } ∈ markOrders l i := by
  unfold markOrders
  refine List.mem_map.2 ⟨o, h, ?_⟩
  simp [hid]

theorem markOrders_delivered (l : List Order) (i : String) (o : Order)
    (h : o ∈ markOrders l i) (hid : o._id = i) : o.isDelivered = true := by
  unfold markOrders at h
  obtain ⟨a, _, ha⟩ := List.mem_map.1 h
  by_cases hai : a._id = i
  · rw [if_pos hai] at ha
    rw [← ha]
  · rw [if_neg hai] at ha
    rw [← ha] at hid
    exact absurd hid hai

theorem takeaway_test_true (e : ExponentForm) (c : List Order) (i : String) (o : Order)
    (hmem : o ∈ c) (hid : o._id = i) (htab : o.tableNumber = 0) :
    c.any (fun order => decide (order._id = i) && parseInt e order.tableNumber == 0) = true := by
  rw [List.any_eq_true]
  refine ⟨o, hmem, ?_⟩
  rw [parseInt_beq_zero]
  simp [htab, hid]

theorem countTapAndCollect_pos (e : ExponentForm) (l : List Order) (o : Order)
    (hmem : o ∈ l) (hund : o.isDelivered = false) (htab : o.tableNumber = 0) :
    countTapAndCollect e l > 0 := by
  unfold countTapAndCollect
  have : o ∈ l.filter
      (fun order => parseInt e order.tableNumber == 0 && !order.isDelivered) := by
    rw [List.mem_filter]
    refine ⟨hmem, ?_⟩
    rw [parseInt_beq_zero]
    simp [htab, hund]
  have := List.length_pos_of_mem this
  omega

/-- C4: in a state whose counters are reconciled and that holds an undelivered order
with id `i` and table number 0, a successful `handleMarkAsDelivered i`, issued from the
button of that order in the rendered list `c`, leaves the order in the list with
`isDelivered` true (as every order with id `i`), and lowers `pendingOrderCount` and
`tapAndCollectCount` by exactly one each. -/
theorem handleMarkAsDelivered_takeaway (e : ExponentForm) (c : List Order) (s : AppState)
    (i : String) (o : Order)
    (hrec : CountersReconciled e s) (hmem : o ∈ s.orders) (hid : o._id = i)
    (hund : o.isDelivered = false) (htab : o.tableNumber = 0) (hclick : o ∈ c) :
    { o with isDelivered := true } ∈ (handleMarkAsDelivered e c s i .ok).orders ∧
    (∀ o2 ∈ (handleMarkAsDelivered e c s i .ok).orders, o2._id = i → o2.isDelivered = true) ∧
    (handleMarkAsDelivered e c s i .ok).pendingOrderCount = s.pendingOrderCount - 1 ∧
    (handleMarkAsDelivered e c s i .ok).tapAndCollectCount = s.tapAndCollectCount - 1 := by
  refine ⟨mem_markOrders_of_mem _ _ _ hmem hid,
    fun o2 h2 hid2 => markOrders_delivered _ _ _ h2 hid2, rfl, ?_⟩
  have hpos : s.tapAndCollectCount > 0 := by
    rw [hrec.2.2]
    exact countTapAndCollect_pos e _ o hmem hund htab
  have hany := takeaway_test_true e c i o hclick hid htab
  show (if decide (s.tapAndCollectCount > 0) &&
      c.any (fun order => decide (order._id = i) && parseInt e order.tableNumber == 0)
    then s.tapAndCollectCount - 1 else s.tapAndCollectCount) = _
  rw [hany]
  simp [hpos]

/-- Witness of C4: a reconciled state holding one undelivered takeaway order `o1`,
whose button is clicked in the render of that same list. -/
theorem handleMarkAsDelivered_takeaway_witness :
    CountersReconciled signDigit (sampleState [sampleOrder "o1" 0 false 10]) ∧
    sampleOrder "o1" 0 false 10 ∈ (sampleState [sampleOrder "o1" 0 false 10]).orders ∧
    (sampleOrder "o1" 0 true 10 ∈
        (handleMarkAsDelivered signDigit [sampleOrder "o1" 0 false 10]
          (sampleState [sampleOrder "o1" 0 false 10]) "o1" .ok).orders) ∧
    (handleMarkAsDelivered signDigit [sampleOrder "o1" 0 false 10]
      (sampleState [sampleOrder "o1" 0 false 10]) "o1" .ok).pendingOrderCount = 1 - 1 ∧
    (handleMarkAsDelivered signDigit [sampleOrder "o1" 0 false 10]
      (sampleState [sampleOrder "o1" 0 false 10]) "o1" .ok).tapAndCollectCount = 1 - 1 := by
  have h := handleMarkAsDelivered_takeaway signDigit [sampleOrder "o1" 0 false 10]
    (sampleState [sampleOrder "o1" 0 false 10]) "o1"
    (sampleOrder "o1" 0 false 10) (by decide) (by simp [sampleState]) rfl rfl rfl (by simp)
  exact ⟨by decide, by simp [sampleState], h.1, h.2.2.1, h.2.2.2⟩

/-- C2, at a state the board reaches by a click on "Mark as Delivered": one undelivered
order `o1` at table 5 with reconciled counters `(1, 1, 0)`. After the successful call
`pendingOrderCount` is 0 but `newOrderCount` is still 1, while `fetchOrders` would
compute 0 for both over the mutated list. -/
theorem handleMarkAsDelivered_newOrderCount_stale :
    CountersReconciled signDigit (sampleState [sampleOrder "o1" 5 false 10]) ∧
    (handleMarkAsDelivered signDigit [sampleOrder "o1" 5 false 10]
      (sampleState [sampleOrder "o1" 5 false 10]) "o1" .ok).orders =
      [sampleOrder "o1" 5 true 10] ∧
    (handleMarkAsDelivered signDigit [sampleOrder "o1" 5 false 10]
      (sampleState [sampleOrder "o1" 5 false 10]) "o1" .ok).pendingOrderCount = 0 ∧
    (handleMarkAsDelivered signDigit [sampleOrder "o1" 5 false 10]
      (sampleState [sampleOrder "o1" 5 false 10]) "o1" .ok).newOrderCount = 1 ∧
    countNew (handleMarkAsDelivered signDigit [sampleOrder "o1" 5 false 10]
      (sampleState [sampleOrder "o1" 5 false 10]) "o1" .ok).orders = 0 ∧
    ¬ CountersReconciled signDigit
      (handleMarkAsDelivered signDigit [sampleOrder "o1" 5 false 10]
        (sampleState [sampleOrder "o1" 5 false 10]) "o1" .ok) := by
  decide

/-- The defect behind C2 in general: `handleMarkAsDelivered` lowers `pendingOrderCount`
and never touches `newOrderCount`, so from a reconciled state no successful call ends in
a reconciled state, whatever the order id and the render it was issued from. -/
theorem handleMarkAsDelivered_not_reconciled (e : ExponentForm) (c : List Order)
    (s : AppState) (i : String) (hrec : CountersReconciled e s) :
    ¬ CountersReconciled e (handleMarkAsDelivered e c s i .ok) := by
  intro h
  obtain ⟨hn, hp, _⟩ := hrec
  obtain ⟨hn2, hp2, _⟩ := h
  have e1 : s.newOrderCount = countNew (markOrders s.orders i) := hn2
  have e2 : s.pendingOrderCount - 1 = countPending (markOrders s.orders i) := hp2
  have e3 : countNew (markOrders s.orders i) = countPending (markOrders s.orders i) := rfl
  have e4 : countNew s.orders = countPending s.orders := rfl
  omega

/-- C5, at a double click: one undelivered takeaway order `o1` with reconciled counters
`(1, 1, 1)`, "Mark as Delivered" clicked twice in the same render before a response, both
calls successful. The second call lowers `pendingOrderCount` from 0 to -1 although the
list holds no undelivered order, so twice differs from once; `tapAndCollectCount`, which
line 100 floors at 0, stays 0. -/
theorem handleMarkAsDelivered_twice_differs :
    (handleMarkAsDelivered signDigit [sampleOrder "o1" 0 false 10]
      (sampleState [sampleOrder "o1" 0 false 10]) "o1" .ok).pendingOrderCount = 0 ∧
    (handleMarkAsDelivered signDigit [sampleOrder "o1" 0 false 10]
      (handleMarkAsDelivered signDigit [sampleOrder "o1" 0 false 10]
        (sampleState [sampleOrder "o1" 0 false 10]) "o1" .ok) "o1" .ok).pendingOrderCount
      = -1 ∧
    (handleMarkAsDelivered signDigit [sampleOrder "o1" 0 false 10]
      (handleMarkAsDelivered signDigit [sampleOrder "o1" 0 false 10]
        (sampleState [sampleOrder "o1" 0 false 10]) "o1" .ok) "o1" .ok).tapAndCollectCount
      = 0 ∧
    countPending (handleMarkAsDelivered signDigit [sampleOrder "o1" 0 false 10]
      (handleMarkAsDelivered signDigit [sampleOrder "o1" 0 false 10]
        (sampleState [sampleOrder "o1" 0 false 10]) "o1" .ok) "o1" .ok).orders = 0 ∧
    handleMarkAsDelivered signDigit [sampleOrder "o1" 0 false 10]
      (handleMarkAsDelivered signDigit [sampleOrder "o1" 0 false 10]
        (sampleState [sampleOrder "o1" 0 false 10]) "o1" .ok) "o1" .ok ≠
    handleMarkAsDelivered signDigit [sampleOrder "o1" 0 false 10]
      (sampleState [sampleOrder "o1" 0 false 10]) "o1" .ok := by
  decide

theorem markOrders_idem (l : List Order) (i : String) :
    markOrders (markOrders l i) i = markOrders l i := by
  unfold markOrders
  rw [List.map_map]
  apply List.map_congr_left
  intro o _
  by_cases h : o._id = i <;> simp [h]

theorem countPending_cons (x : Order) (xs : List Order) :
    countPending (x :: xs) = countPending xs + (if x.isDelivered then 0 else 1) := by
  unfold countPending
  cases h : x.isDelivered <;> simp [List.filter_cons, h]

theorem countTapAndCollect_cons (e : ExponentForm) (x : Order) (xs : List Order) :
    countTapAndCollect e (x :: xs) =
      countTapAndCollect e xs +
        (if x.tableNumber = 0 ∧ x.isDelivered = false then 1 else 0) := by
  unfold countTapAndCollect
  rw [List.filter_cons, parseInt_beq_zero]
  by_cases ht : x.tableNumber = 0 <;> cases h : x.isDelivered <;> simp [h, ht]

theorem markOrders_of_no_match (l : List Order) (i : String)
    (h : l.filter (fun o => decide (o._id = i)) = []) : markOrders l i = l := by
  unfold markOrders
  conv_rhs => rw [← List.map_id l]
  apply List.map_congr_left
  intro o ho
  have hne : ¬ o._id = i := by
    intro e
    have : o ∈ l.filter (fun o => decide (o._id = i)) := List.mem_filter.2 ⟨ho, by simp [e]⟩
    rw [h] at this
    exact absurd this (List.not_mem_nil _)
  rw [if_neg hne]; rfl

theorem counts_markOrders_of_unique (e : ExponentForm) (l : List Order) (i : String)
    (o : Order) (huniq : l.filter (fun o => decide (o._id = i)) = [o])
    (hund : o.isDelivered = false) :
    countPending (markOrders l i) = countPending l - 1 ∧
    countTapAndCollect e (markOrders l i) =
      countTapAndCollect e l - (if o.tableNumber = 0 then 1 else 0) := by
  induction l with
  | nil => simp at huniq
  | cons x xs ih =>
    rw [markOrders_cons, countPending_cons, countPending_cons, countTapAndCollect_cons,
      countTapAndCollect_cons]
    by_cases hx : x._id = i
    · rw [List.filter_cons, if_pos (by simp [hx])] at huniq
      have hxo : x = o := (List.cons.inj huniq).1
      have hrest := (List.cons.inj huniq).2
      rw [markOrders_of_no_match xs i hrest, if_pos hx]
      subst hxo
      simp only [hund]
      by_cases ht : x.tableNumber = 0
      · simp [ht]
      · simp [ht]
    · rw [List.filter_cons, if_neg (by simp [hx])] at huniq
      obtain ⟨h1, h2⟩ := ih huniq
      rw [if_neg hx, h1, h2]
      constructor <;> omega

/-- What does hold of C2: when exactly one order carries the id and it is undelivered,
and the call is issued from the render of the state's own list, `pendingOrderCount` and
`tapAndCollectCount` after a successful call are the values `fetchOrders` computes over
the mutated list, and `newOrderCount` is one too high. -/
theorem handleMarkAsDelivered_pending_takeaway_reconciled (e : ExponentForm) (s : AppState)
    (i : String) (o : Order) (hrec : CountersReconciled e s)
    (huniq : s.orders.filter (fun o => decide (o._id = i)) = [o])
    (hund : o.isDelivered = false) :
    (handleMarkAsDelivered e s.orders s i .ok).pendingOrderCount =
      countPending (handleMarkAsDelivered e s.orders s i .ok).orders ∧
    (handleMarkAsDelivered e s.orders s i .ok).tapAndCollectCount =
      countTapAndCollect e (handleMarkAsDelivered e s.orders s i .ok).orders ∧
    (handleMarkAsDelivered e s.orders s i .ok).newOrderCount =
      countNew (handleMarkAsDelivered e s.orders s i .ok).orders + 1 := by
  obtain ⟨hn, hp, ht⟩ := hrec
  obtain ⟨c1, c2⟩ := counts_markOrders_of_unique e s.orders i o huniq hund
  have hmem : o ∈ s.orders ∧ o._id = i := by
    have : o ∈ s.orders.filter (fun o => decide (o._id = i)) := by rw [huniq]; simp
    rw [List.mem_filter] at this
    exact ⟨this.1, by simpa using this.2⟩
  have hpend : (1 : Int) ≤ countPending s.orders := by
    unfold countPending
    have : o ∈ s.orders.filter (fun order => !order.isDelivered) :=
      List.mem_filter.2 ⟨hmem.1, by simp [hund]⟩
    have := List.length_pos_of_mem this
    omega
  refine ⟨?_, ?_, ?_⟩
  · show s.pendingOrderCount - 1 = countPending (markOrders s.orders i)
    rw [c1, hp]
  · show (if decide (s.tapAndCollectCount > 0) &&
        s.orders.any (fun order => decide (order._id = i) && parseInt e order.tableNumber == 0)
      then s.tapAndCollectCount - 1 else s.tapAndCollectCount) =
      countTapAndCollect e (markOrders s.orders i)
    rw [c2]
    by_cases htab : o.tableNumber = 0
    · have hany := takeaway_test_true e s.orders i o hmem.1 hmem.2 htab
      have hpos : s.tapAndCollectCount > 0 := by
        rw [ht]
        exact countTapAndCollect_pos e _ o hmem.1 hund htab
      rw [hany, if_pos (by simp [hpos]), if_pos htab, ht]
    · have hany : s.orders.any (fun order =>
          decide (order._id = i) && parseInt e order.tableNumber == 0) = false := by
        rw [List.any_eq_false]
        intro a ha
        by_cases hai : a._id = i
        · have : a ∈ s.orders.filter (fun o => decide (o._id = i)) :=
            List.mem_filter.2 ⟨ha, by simp [hai]⟩
          rw [huniq] at this
          have hao : a = o := by simpa using this
          subst hao
          rw [parseInt_beq_zero]
          simp [htab]
        · simp [hai]
      rw [hany, if_neg (by simp), if_neg htab, ht]
      omega
  · show s.newOrderCount = countNew (markOrders s.orders i) + 1
    have e1 : countNew (markOrders s.orders i) = countPending (markOrders s.orders i) := rfl
    have e2 : countNew s.orders = countPending s.orders := rfl
    rw [e1, c1, hn, e2]
    omega

/-! ## Failed remote calls -/

/-- C7: a failed `fetchOrders` changes nothing but the error and the loading flag: the
error becomes `"Error: "` followed by the status text for a response that is not ok and
the rejection's message for a transport error, and loading is cleared. A failed
`handleMarkAsDelivered` changes nothing but the error: it becomes the body's `error`
field when that is a non-empty text, `"Error marking order as delivered"` when the field
is absent or empty, and the rejection's message for a transport error. Order list, the
three counters and the stored previous count are as before in every case. -/
theorem failed_call_keeps_state (e : ExponentForm) (p : Int) (c : List Order)
    (s : AppState) (i : String) :
    (∀ statusText : String, fetchOrders e p s (.notOk statusText) =
      ({ s with error := "Error: " ++ statusText, loading := false }, false)) ∧
    (∀ message : String, fetchOrders e p s (.rejected message) =
      ({ s with error := message, loading := false }, false)) ∧
    (∀ message : String, message ≠ "" →
      handleMarkAsDelivered e c s i (.notOk (some message)) = { s with error := message }) ∧
    handleMarkAsDelivered e c s i (.notOk (some "")) =
      { s with error := "Error marking order as delivered" } ∧
    handleMarkAsDelivered e c s i (.notOk none) =
      { s with error := "Error marking order as delivered" } ∧
    (∀ message : String, handleMarkAsDelivered e c s i (.rejected message) =
      { s with error := message }) := by
  refine ⟨fun _ => rfl, fun _ => rfl, ?_, rfl, rfl, fun _ => rfl⟩
  intro message hne
  have hm : markErrorMessage (some message) = message := by
    show (if message = "" then "Error marking order as delivered" else message) = message
    rw [if_neg hne]
  show { s with error := markErrorMessage (some message) } = _
  rw [hm]

/-! ## The delivered flag over sequences of calls -/

theorem deliveredFlag_cons (x : Order) (xs : List Order) (j : String) :
    deliveredFlag (x :: xs) j =
      if x._id = j then some x.isDelivered else deliveredFlag xs j := by
  unfold deliveredFlag
  rw [List.find?_cons]
  by_cases h : x._id = j
  · simp [h]
  · simp [h]

theorem deliveredFlag_markOrders (l : List Order) (i j : String)
    (h : deliveredFlag l j ≠ some false) : deliveredFlag (markOrders l i) j ≠ some false := by
  induction l with
  | nil => exact h
  | cons x xs ih =>
    rw [markOrders_cons, deliveredFlag_cons]
    rw [deliveredFlag_cons] at h
    by_cases hxi : x._id = i
    · rw [if_pos hxi]
      by_cases hxj : x._id = j
      · rw [if_pos hxj]
        simp
      · rw [if_neg hxj] at h ⊢
        exact ih h
    · rw [if_neg hxi]
      by_cases hxj : x._id = j
      · rw [if_pos hxj] at h ⊢
        exact h
      · rw [if_neg hxj] at h ⊢
        exact ih h

theorem deliveredFlag_of_all_delivered (l : List Order) (j : String)
    (h : ∀ o ∈ l, o._id = j → o.isDelivered = true) : deliveredFlag l j ≠ some false := by
  intro hf
  unfold deliveredFlag at hf
  cases hfind : l.find? (fun order => decide (order._id = j)) with
  | none => rw [hfind] at hf; simp at hf
  | some o =>
    rw [hfind] at hf
    have hmem := List.mem_of_find?_eq_some hfind
    have hid : o._id = j := by simpa using List.find?_some hfind
    have := h o hmem hid
    simp [this] at hf

theorem step_keeps_delivered (e : ExponentForm) (s : AppState) (ev : Event) (j : String)
    (h : deliveredFlag s.orders j ≠ some false)
    (hsnap : ∀ p snapshot, ev = Event.fetch p (.ok snapshot) →
      ∀ o ∈ snapshot, o._id = j → o.isDelivered = true) :
    deliveredFlag (step e s ev).orders j ≠ some false := by
  cases ev with
  | fetch p response =>
    cases response with
    | ok snapshot =>
      apply deliveredFlag_of_all_delivered
      intro o ho hid
      exact hsnap p snapshot rfl o ((arraySort_perm compareCreatedAt snapshot).subset ho) hid
    | notOk statusText => exact h
    | rejected message => exact h
  | mark c orderId response =>
    cases response with
    | ok => exact deliveredFlag_markOrders _ _ _ h
    | notOk error => exact h
    | rejected message => exact h

theorem run_keeps_delivered (e : ExponentForm) (events : List Event) (s : AppState)
    (j : String) (h : deliveredFlag s.orders j ≠ some false)
    (hsnap : ∀ p snapshot, Event.fetch p (.ok snapshot) ∈ events →
      ∀ o ∈ snapshot, o._id = j → o.isDelivered = true) :
    deliveredFlag (run e s events).orders j ≠ some false := by
  induction events generalizing s with
  | nil => exact h
  | cons ev es ih =>
    show deliveredFlag (run e (step e s ev) es).orders j ≠ some false
    apply ih
    · apply step_keeps_delivered _ _ _ _ h
      intro p snapshot he
      exact hsnap p snapshot (he ▸ List.mem_cons_self _ _)
    · intro p snapshot hmem
      exact hsnap p snapshot (List.mem_cons_of_mem _ hmem)

/-- C6 as stated fails: from a state holding the undelivered order `o1`, a successful
`handleMarkAsDelivered` sets its local flag to true, and a following successful
`fetchOrders` whose snapshot still holds `o1` undelivered sets it back to false. -/
theorem fetchOrders_reverts_delivered :
    deliveredFlag (run signDigit (sampleState [sampleOrder "o1" 5 false 10])
      [Event.mark [sampleOrder "o1" 5 false 10] "o1" .ok]).orders "o1" = some true ∧
    deliveredFlag (run signDigit (sampleState [sampleOrder "o1" 5 false 10])
      [Event.mark [sampleOrder "o1" 5 false 10] "o1" .ok,
        Event.fetch 1 (.ok [sampleOrder "o1" 5 false 10])]).orders "o1" = some false := by
  decide

/-- C6, amended: `handleMarkAsDelivered` and failed calls never turn a local delivered
flag back to false, and `fetchOrders` installs the flags of its snapshot as they are; so
an id whose local flag is true is never seen with a false flag at any later point of a
sequence of calls in which no snapshot holds that id with `isDelivered` false. -/
theorem delivered_never_reverts (e : ExponentForm) (s : AppState) (events : List Event)
    (j : String) (h : deliveredFlag s.orders j = some true)
    (hsnap : ∀ p snapshot, Event.fetch p (.ok snapshot) ∈ events →
      ∀ o ∈ snapshot, o._id = j → o.isDelivered = true) :
    ∀ k : Nat, deliveredFlag (run e s (events.take k)).orders j ≠ some false := by
  intro k
  apply run_keeps_delivered
  · rw [h]; simp
  · intro p snapshot hmem
    exact hsnap p snapshot (List.mem_of_mem_take hmem)

/-- Witness of C6 (amended): `o1` is delivered locally, then two orders are marked, a
fetch fails and a fetch brings a snapshot in which `o1` is delivered. -/
theorem delivered_never_reverts_witness :
    deliveredFlag (sampleState [sampleOrder "o1" 5 true 10, sampleOrder "o2" 0 false 9]).orders
      "o1" = some true ∧
    deliveredFlag
      (run signDigit (sampleState [sampleOrder "o1" 5 true 10, sampleOrder "o2" 0 false 9])
        ([Event.mark [sampleOrder "o1" 5 true 10, sampleOrder "o2" 0 false 9] "o2" .ok,
          Event.mark [sampleOrder "o1" 5 true 10, sampleOrder "o2" 0 false 9] "o1" .ok,
          Event.fetch 2 (.notOk "Not Found"),
          Event.fetch 2 (.ok [sampleOrder "o2" 0 false 9, sampleOrder "o1" 5 true 10])].take
          4)).orders "o1" ≠ some false :=
  ⟨by decide,
    delivered_never_reverts signDigit _ _ "o1" (by decide) (by
      intro p snapshot hmem o ho hid
      simp only [List.mem_cons, List.mem_singleton, List.not_mem_nil, or_false,
        reduceCtorEq, false_or, Event.fetch.injEq, FetchResponse.ok.injEq, false_and,
        and_false] at hmem
      obtain ⟨_, hs⟩ := hmem
      subst hs
      simp only [List.mem_cons, List.mem_singleton, List.not_mem_nil, or_false] at ho
      rcases ho with rfl | rfl
      · simp [sampleOrder] at hid
      · rfl) 4⟩

/-! ## View projection -/

theorem getTableStatus_any (e : ExponentForm) (orders : List Order) (t : Int) :
    (orders.filter (fun order => parseInt e order.tableNumber == t)).any
        (fun order => !order.isDelivered) = true ↔
      ∃ o ∈ orders, parseInt e o.tableNumber = t ∧ o.isDelivered = false := by
  rw [List.any_eq_true]
  constructor
  · rintro ⟨o, ho, hd⟩
    rw [List.mem_filter] at ho
    refine ⟨o, ho.1, ?_, ?_⟩
    · simpa using ho.2
    · simpa using hd
  · rintro ⟨o, ho, ht, hd⟩
    refine ⟨o, List.mem_filter.2 ⟨ho, ?_⟩, ?_⟩
    · simpa using ht
    · simpa using hd

theorem exists_parseInt_iff_of_small (e : ExponentForm) (orders : List Order) (t : Int)
    (hsmall : ∀ o ∈ orders, o.tableNumber.natAbs < 10 ^ 21) :
    (∃ o ∈ orders, parseInt e o.tableNumber = t ∧ o.isDelivered = false) ↔
      ∃ o ∈ orders, o.tableNumber = t ∧ o.isDelivered = false := by
  constructor
  · rintro ⟨o, ho, ht, hd⟩
    exact ⟨o, ho, by rw [← parseInt_of_small e _ (hsmall o ho)]; exact ht, hd⟩
  · rintro ⟨o, ho, ht, hd⟩
    exact ⟨o, ho, by rw [parseInt_of_small e _ (hsmall o ho)]; exact ht, hd⟩

/-- C8 as stated fails twice: for a table with no undelivered order `getTableStatus`
returns the empty string, not `"none"`; and an undelivered order whose table number is
1e21, which `parseInt` reads as 1, makes table 1 `"pending"` although no order has table
number 1. -/
theorem getTableStatus_not_none :
    (¬ ∃ o ∈ [sampleOrder "o1" 3 true 10], o.tableNumber = 3 ∧ o.isDelivered = false) ∧
    getTableStatus signDigit [sampleOrder "o1" 3 true 10] 3 = "" ∧
    getTableStatus signDigit [sampleOrder "o1" 3 true 10] 3 ≠ "none" ∧
    (¬ ∃ o ∈ [sampleOrder "o2" (10 ^ 21) false 10],
      o.tableNumber = 1 ∧ o.isDelivered = false) ∧
    getTableStatus signDigit [sampleOrder "o2" (10 ^ 21) false 10] 1 = "pending" := by
  decide

/-- C8, amended: `getTableStatus orders t` is `"pending"` exactly when some order of the
list has `isDelivered` false and a table number that `parseInt` reads as `t`, and the
empty string otherwise; when the table numbers of the list are below 1e21 in magnitude,
`parseInt` reads each as itself and the condition is `tableNumber = t`. -/
theorem getTableStatus_pending_iff (e : ExponentForm) (orders : List Order) (t : Int) :
    (getTableStatus e orders t = "pending" ↔
      ∃ o ∈ orders, parseInt e o.tableNumber = t ∧ o.isDelivered = false) ∧
    (getTableStatus e orders t = "" ↔
      ¬ ∃ o ∈ orders, parseInt e o.tableNumber = t ∧ o.isDelivered = false) ∧
    ((∀ o ∈ orders, o.tableNumber.natAbs < 10 ^ 21) →
      (getTableStatus e orders t = "pending" ↔
        ∃ o ∈ orders, o.tableNumber = t ∧ o.isDelivered = false) ∧
      (getTableStatus e orders t = "" ↔
        ¬ ∃ o ∈ orders, o.tableNumber = t ∧ o.isDelivered = false)) := by
  have key := getTableStatus_any e orders t
  have main : (getTableStatus e orders t = "pending" ↔
        ∃ o ∈ orders, parseInt e o.tableNumber = t ∧ o.isDelivered = false) ∧
      (getTableStatus e orders t = "" ↔
        ¬ ∃ o ∈ orders, parseInt e o.tableNumber = t ∧ o.isDelivered = false) := by
    unfold getTableStatus
    by_cases h : (orders.filter (fun order => parseInt e order.tableNumber == t)).any
        (fun order => !order.isDelivered) = true
    · have hex := key.1 h
      rw [if_pos h]
      exact ⟨⟨fun _ => hex, fun _ => rfl⟩,
        ⟨fun hp => absurd hp (by decide), fun hn => absurd hex hn⟩⟩
    · have hex : ¬ ∃ o ∈ orders, parseInt e o.tableNumber = t ∧ o.isDelivered = false :=
        fun ex => h (key.2 ex)
      rw [if_neg h]
      exact ⟨⟨fun hp => absurd hp (by decide), fun ex => absurd ex hex⟩,
        ⟨fun _ => hex, fun _ => rfl⟩⟩
  refine ⟨main.1, main.2, ?_⟩
  intro hsmall
  rw [← exists_parseInt_iff_of_small e orders t hsmall]
  exact main

theorem filter_table_of_small (e : ExponentForm) (orders : List Order) (t : Int)
    (q : Order → Bool) (hsmall : ∀ o ∈ orders, o.tableNumber.natAbs < 10 ^ 21) :
    orders.filter (fun o => q o && parseInt e o.tableNumber == t) =
      orders.filter (fun o => q o && o.tableNumber == t) := by
  apply List.filter_congr
  intro o ho
  rw [parseInt_of_small e _ (hsmall o ho)]

theorem filteredOrders_table (e : ExponentForm) (orders : List Order) (t : Int)
    (ht : t ≠ 0) :
    filteredOrders e orders "All Orders" (some t) =
      orders.filter (fun o => true && parseInt e o.tableNumber == t) ∧
    filteredOrders e orders "Undelivered Orders" (some t) =
      orders.filter (fun o => !o.isDelivered && parseInt e o.tableNumber == t) := by
  constructor
  · simp only [filteredOrders, truthy]
    simp only [ht, true_or, ite_true, bne_iff_ne, ne_eq, not_false_eq_true,
      decide_True, Bool.true_or, Option.some.injEq]
    apply List.filter_congr
    intro o _
    rfl
  · simp only [filteredOrders, truthy]
    simp only [ht, or_true, ite_true, bne_iff_ne, ne_eq, not_false_eq_true,
      decide_True, decide_False, Bool.false_or, Option.some.injEq, reduceCtorEq]
    apply List.filter_congr
    intro o _
    rfl

/-- C9 as stated fails: with table 1 selected, "All Orders" shows an order whose table
number is 1e21, which `parseInt` reads as 1, although no order has table number 1. -/
theorem filteredOrders_large_tableNumber :
    filteredOrders signDigit [sampleOrder "o1" (10 ^ 21) false 10] "All Orders" (some 1) =
      [sampleOrder "o1" (10 ^ 21) false 10] ∧
    [sampleOrder "o1" (10 ^ 21) false 10].filter (fun o => o.tableNumber == 1) = [] ∧
    filteredOrders signDigit [sampleOrder "o1" (10 ^ 21) false 10] "All Orders" (some 1) ≠
      [sampleOrder "o1" (10 ^ 21) false 10].filter (fun o => o.tableNumber == 1) := by
  decide

/-- C9, amended: `filteredOrders` is, in list order: for "All Orders", all orders when
`selectedTable` is unset and, when it is a table `t` of the grid (any nonzero `t`), the
orders whose table number `parseInt` reads as `t`; for "Undelivered Orders", the same
restricted to orders with `isDelivered` false; for "Tap and Collect", the orders with
table number 0, whatever `selectedTable` is. When the table numbers of the list are below
1e21 in magnitude, `parseInt` reads each as itself and the table test is
`tableNumber = t`. -/
theorem filteredOrders_spec (e : ExponentForm) (orders : List Order) :
    filteredOrders e orders "All Orders" none = orders ∧
    filteredOrders e orders "Undelivered Orders" none =
      orders.filter (fun o => !o.isDelivered) ∧
    (∀ t : Int, t ≠ 0 → filteredOrders e orders "All Orders" (some t) =
      orders.filter (fun o => parseInt e o.tableNumber == t)) ∧
    (∀ t : Int, t ≠ 0 → filteredOrders e orders "Undelivered Orders" (some t) =
      orders.filter (fun o => !o.isDelivered && parseInt e o.tableNumber == t)) ∧
    (∀ selectedTable : Option Int, filteredOrders e orders "Tap and Collect" selectedTable =
      orders.filter (fun o => o.tableNumber == 0)) ∧
    ((∀ o ∈ orders, o.tableNumber.natAbs < 10 ^ 21) → ∀ t : Int, t ≠ 0 →
      filteredOrders e orders "All Orders" (some t) =
        orders.filter (fun o => o.tableNumber == t) ∧
      filteredOrders e orders "Undelivered Orders" (some t) =
        orders.filter (fun o => !o.isDelivered && o.tableNumber == t)) := by
  refine ⟨?_, ?_, ?_, ?_, ?_, ?_⟩
  · simp [filteredOrders, truthy]
  · simp [filteredOrders, truthy]
  · intro t ht
    rw [(filteredOrders_table e orders t ht).1]
    apply List.filter_congr
    intro o _
    rfl
  · intro t ht
    exact (filteredOrders_table e orders t ht).2
  · intro selectedTable
    have h : filteredOrders e orders "Tap and Collect" selectedTable =
        orders.filter (fun order => parseInt e order.tableNumber == 0) := by
      simp [filteredOrders]
    rw [h]
    apply List.filter_congr
    intro o _
    exact parseInt_beq_zero e _
  · intro hsmall t ht
    obtain ⟨h1, h2⟩ := filteredOrders_table e orders t ht
    rw [h1, h2, filter_table_of_small e orders t (fun _ => true) hsmall,
      filter_table_of_small e orders t (fun o => !o.isDelivered) hsmall]
    refine ⟨?_, rfl⟩
    apply List.filter_congr
    intro o _
    rfl

end OrderBoard
